import Mathlib

set_option linter.unreachableTactic false
set_option linter.unusedTactic false
set_option linter.unnecessarySeqFocus false

/-
Shallow embedding of the porto container supervisor core (container.cpp)
and verification of its specification.

The embedding follows src/container.cpp.  The collaborating classes TTask,
TCgroup, TSubsystem and the property store TSpec live in headers and
translation units that are not part of src/; their behaviour at the call
sites used by container.cpp is modelled by an explicit environment record
(`Env`) of oracles, and by small state records (`TTask`, `TSpec`) carrying
exactly the fields container.cpp reads and writes.  Kernel-side effects
(cgroup creation, kills, freezer writes, forks) are recorded in an action
trace so that "performs no step" and "kills everything" style properties
can be stated.
-/

namespace Porto

/-- Error kinds.  error.hpp is not in src/; the kinds are those used by
container.cpp plus the remaining kinds named in spec section 7. -/
inductive EError where
  | Success
  | Unknown
  | InvalidValue
  | InvalidState
  | InvalidProperty
  | InvalidData
  | NoSpace
  | Busy
  | Permission
deriving DecidableEq, Repr

/-- TError: an error kind plus a detail message. -/
structure TError where
  kind : EError
  msg : String
deriving DecidableEq, Repr

/-- TError::Success(). -/
def TError.success : TError := ⟨EError.Success, ""⟩

/-- The boolean test `if (error)` on a TError. -/
def TError.ok (e : TError) : Bool := e.kind == EError.Success

inductive EContainerState where
  | Stopped
  | Dead
  | Running
  | Paused
deriving DecidableEq, Repr

/-- The three subsystems container.cpp binds a container to. -/
inductive TSubsystem where
  | freezer
  | cpuacct
  | memory
deriving DecidableEq, Repr

/-- A cgroup handle: one directory in one controller's hierarchy,
identified by its path components under the subsystem root. -/
structure TCgroup where
  subsys : TSubsystem
  path : List String
deriving DecidableEq, Repr

/-- Modelled from the spec: ROOT_CONTAINER is defined in container.hpp,
which is not in src/; spec section 3 names the reserved top-level
container `ROOT`. -/
def ROOT_CONTAINER : String := "ROOT"

/-- Modelled from the spec: PORTO_ROOT_CGROUP is defined in a header not
in src/; spec section 6 fixes the subtree path component `porto`. -/
def PORTO_ROOT_CGROUP : String := "porto"

/-- TExitStatus (task.hpp, not in src/): the two components read by
container.cpp, a wait status and a launch errno. -/
structure TExitStatus where
  Error : Int
  Status : Int
deriving DecidableEq, Repr

/-- The TTask fields observable through the calls container.cpp makes:
GetPid, IsRunning, GetExitStatus. -/
structure TTask where
  pid : Int
  running : Bool
  exitStatus : TExitStatus
deriving DecidableEq, Repr

/-- A freshly constructed, not yet started task. -/
def newTask : TTask := { pid := 0, running := false, exitStatus := ⟨0, 0⟩ }

/-- The C++ pattern `Task && Task->IsRunning()` on the optional task. -/
def taskIsRunning : Option TTask → Bool
  | none => false
  | some t => t.running

/-- Insert or overwrite a key in an association list. -/
def assocSet : List (String × String) → String → String → List (String × String)
  | [], k, v => [(k, v)]
  | (k', v') :: rest, k, v =>
    if k' == k then (k, v) :: rest else (k', v') :: assocSet rest k v

/-- The property store TSpec (spec.hpp/.cpp not in src/): user-visible
properties, internal slots, and the set of dynamic property names.
`Get` defaults to the empty string, `GetInternal` fails on a missing key,
matching the uses in container.cpp. -/
structure TSpec where
  props : List (String × String)
  internal : List (String × String)
  dynamicProps : List String
deriving DecidableEq, Repr

def TSpec.get (s : TSpec) (k : String) : String := (s.props.lookup k).getD ""

def TSpec.getInternal (s : TSpec) (k : String) : Option String := s.internal.lookup k

def TSpec.setInternal (s : TSpec) (k v : String) : TSpec :=
  { s with internal := assocSet s.internal k v }

def TSpec.isDynamic (s : TSpec) (k : String) : Bool := s.dynamicProps.contains k

def TSpec.set (s : TSpec) (k v : String) : TSpec :=
  { s with props := assocSet s.props k v }

def emptySpec : TSpec := { props := [], internal := [], dynamicProps := [] }

/-- Kernel-side effects performed by container operations, recorded as a
trace.  Signal numbers: SIGTERM = 15, SIGKILL = 9. -/
inductive TAction where
  | cgCreate (cg : TCgroup)
  | useHierarchy (cg : TCgroup)
  | setKnob (cg : TCgroup) (knob value : String)
  | kill (cg : TCgroup) (sig : Int)
  | freeze (cg : TCgroup)
  | unfreeze (cg : TCgroup)
  | forkTask
  | ackExit (pid : Int)
deriving DecidableEq, Repr

/-- Environment oracles: the outcomes of the calls container.cpp makes
into the cgroup, subsystem, task and persistence layers (whose sources
are not in src/).  Each oracle is a pure function, so a given Env fixes
the outcome of every such call. -/
structure Env where
  cgCreate : TCgroup → TError
  useHierarchy : TCgroup → TError
  hasLowLimitKnob : Bool
  setKnob : TCgroup → String → String → TError
  taskEnvPrepare : TError
  taskStart : Except TError Int
  freeze : TCgroup → TError
  unfreeze : TCgroup → TError
  getTasks : TCgroup → Except TError (List Int)
  getProcesses : TCgroup → List Int
  usage : TCgroup → Option Nat
  taskStdout : String
  taskStderr : String
  specCreate : String → TError
  specRestore : List (String × String) → Except TError TSpec
  taskRestore : Int → TError
  restoredTaskRunning : Bool
  specSet : String → String → TError

/-- The TContainer state: name, property store, lifecycle state, optional
task, leaf cgroup map and the torn-acknowledgement flag. -/
structure TContainer where
  Name : String
  Spec : TSpec
  State : EContainerState
  Task : Option TTask
  LeafCgroups : List (TSubsystem × TCgroup)
  MaybeReturnedOk : Bool
deriving DecidableEq, Repr

/-- TContainer's constructor lives in container.hpp (not in src/); spec
section 3: initial state after creation is Stopped. -/
def TContainer.new (name : String) : TContainer :=
  { Name := name, Spec := emptySpec, State := EContainerState.Stopped,
    Task := none, LeafCgroups := [], MaybeReturnedOk := false }

def TContainer.GetName (c : TContainer) : String := c.Name

def TContainer.IsRoot (c : TContainer) : Bool := c.Name == ROOT_CONTAINER

/-- TContainer::GetLeafCgroup: the cached leaf if present, otherwise the
path `<root>/porto` for ROOT and `<root>/porto/<name>` for others. -/
def TContainer.GetLeafCgroup (c : TContainer) (s : TSubsystem) : TCgroup :=
  match c.LeafCgroups.lookup s with
  | some cg => cg
  | none =>
    if c.Name == ROOT_CONTAINER then ⟨s, [PORTO_ROOT_CGROUP]⟩
    else ⟨s, [PORTO_ROOT_CGROUP, c.Name]⟩

/-- TContainer::Processes: the processes in the freezer leaf. -/
def TContainer.Processes (env : Env) (c : TContainer) : List Int :=
  env.getProcesses (c.GetLeafCgroup TSubsystem.freezer)

/-- TContainer::IsAlive. -/
def TContainer.IsAlive (env : Env) (c : TContainer) : Bool :=
  c.IsRoot || !(c.Processes env).isEmpty

def ContainerStateName : EContainerState → String
  | EContainerState.Stopped => "stopped"
  | EContainerState.Dead => "dead"
  | EContainerState.Running => "running"
  | EContainerState.Paused => "paused"

/-- The state-downgrade performed inside TContainer::CheckState
(lines 127-132): a Running container whose task is gone or no longer
running is silently moved to Stopped. -/
def TContainer.reconcile (c : TContainer) : TContainer :=
  if c.State == EContainerState.Running && !(taskIsRunning c.Task) then
    { c with State := EContainerState.Stopped }
  else c

/-- TContainer::CheckState: reconcile, then compare with the expected
state. -/
def TContainer.CheckState (c : TContainer) (expected : EContainerState) :
    Bool × TContainer :=
  let c' := c.reconcile
  (c'.State == expected, c')

/-- The error the lifecycle gates build:
`TError(EError::InvalidValue, "invalid container state " + name)`. -/
def invalidStateErr (s : EContainerState) : TError :=
  ⟨EError.InvalidValue, "invalid container state " ++ ContainerStateName s⟩

/-- The three leaves PrepareCgroups installs, in the order of the three
GetLeafCgroup calls of lines 162-164. -/
def startLeaves (c : TContainer) : List (TSubsystem × TCgroup) :=
  [(TSubsystem.cpuacct, c.GetLeafCgroup TSubsystem.cpuacct),
   (TSubsystem.memory, c.GetLeafCgroup TSubsystem.memory),
   (TSubsystem.freezer, c.GetLeafCgroup TSubsystem.freezer)]

/-- The create loop of PrepareCgroups (lines 166-172): create each leaf,
stopping at the first error.  Returns the first error (or success) and
the trace of attempted creates. -/
def createLeaves (env : Env) : List (TSubsystem × TCgroup) → TError × List TAction
  | [] => (TError.success, [])
  | (_, cg) :: rest =>
    let e := env.cgCreate cg
    if e.ok then
      let r := createLeaves env rest
      (r.1, TAction.cgCreate cg :: r.2)
    else (e, [TAction.cgCreate cg])

/-- TContainer::PrepareCgroups (lines 161-195).  On a leaf-create failure
the LeafCgroups map is cleared; errors from use_hierarchy or the memory
knob writes are returned with the map left populated. -/
def TContainer.PrepareCgroups (env : Env) (c : TContainer) :
    TError × TContainer × List TAction :=
  let leaves := startLeaves c
  let c1 := { c with LeafCgroups := leaves }
  let cr := createLeaves env leaves
  if !cr.1.ok then (cr.1, { c1 with LeafCgroups := [] }, cr.2)
  else
    let memcg := c1.GetLeafCgroup TSubsystem.memory
    let e1 := env.useHierarchy memcg
    let acts1 := cr.2 ++ [TAction.useHierarchy memcg]
    if !e1.ok then (e1, c1, acts1)
    else if env.hasLowLimitKnob then
      let g := c1.Spec.get "memory_guarantee"
      let e2 := env.setKnob memcg "memory.low_limit_in_bytes" g
      let acts2 := acts1 ++ [TAction.setKnob memcg "memory.low_limit_in_bytes" g]
      if !e2.ok then (e2, c1, acts2)
      else
        let l := c1.Spec.get "memory_limit"
        let e3 := env.setKnob memcg "memory.limit_in_bytes" l
        let acts3 := acts2 ++ [TAction.setKnob memcg "memory.limit_in_bytes" l]
        if !e3.ok then (e3, c1, acts3) else (TError.success, c1, acts3)
    else
      let l := c1.Spec.get "memory_limit"
      let e3 := env.setKnob memcg "memory.limit_in_bytes" l
      let acts3 := acts1 ++ [TAction.setKnob memcg "memory.limit_in_bytes" l]
      if !e3.ok then (e3, c1, acts3) else (TError.success, c1, acts3)

/-- TContainer::PrepareTask (lines 197-208): build the task environment
from the spec; on success install a fresh, not yet started task. -/
def TContainer.PrepareTask (env : Env) (c : TContainer) : TError × TContainer :=
  let e := env.taskEnvPrepare
  if !e.ok then (e, c)
  else (TError.success, { c with Task := some newTask })

/-- TContainer::Start (lines 230-274). -/
def TContainer.Start (env : Env) (c : TContainer) :
    TError × TContainer × List TAction :=
  if (c.State == EContainerState.Running || c.State == EContainerState.Dead)
      && c.MaybeReturnedOk then
    (TError.success, { c with MaybeReturnedOk := false }, [])
  else
    let c := { c with MaybeReturnedOk := false }
    let chk := c.CheckState EContainerState.Stopped
    let c := chk.2
    if !chk.1 then (invalidStateErr c.State, c, [])
    else
      let pc := c.PrepareCgroups env
      let c := pc.2.1
      if !pc.1.ok then (pc.1, c, pc.2.2)
      else if c.IsRoot then
        (TError.success, { c with State := EContainerState.Running }, pc.2.2)
      else if (c.Spec.get "command").length == 0 then
        (⟨EError.InvalidValue, "container command is empty"⟩, c, pc.2.2)
      else
        let pt := c.PrepareTask env
        let c := pt.2
        if !pt.1.ok then (pt.1, c, pc.2.2)
        else
          match env.taskStart with
          | Except.error e =>
            (e, { c with LeafCgroups := [] }, pc.2.2 ++ [TAction.forkTask])
          | Except.ok pid =>
            (TError.success,
             { c with Task := some { newTask with pid := pid, running := true },
                      Spec := c.Spec.setInternal "root_pid" (toString pid),
                      State := EContainerState.Running },
             pc.2.2 ++ [TAction.forkTask])

/-- TContainer::KillAll (lines 276-314).  Kill outcomes, the sleep and
the freezer errors are only logged; the returned error can only come
from reading the freezer leaf's task list. -/
def TContainer.KillAll (env : Env) (c : TContainer) : TError × List TAction :=
  let cg := c.GetLeafCgroup TSubsystem.freezer
  match env.getTasks cg with
  | Except.error e => (e, [])
  | Except.ok _ =>
    let acts := [TAction.kill cg 15, TAction.freeze cg]
    match env.getTasks cg with
    | Except.error e => (e, acts)
    | Except.ok _ =>
      (TError.success, acts ++ [TAction.kill cg 9, TAction.unfreeze cg])

/-- TContainer::Stop (lines 319-338).  A KillAll failure is only logged;
once past the gate, Stop always succeeds.  The source dereferences Task
for the pid; Task is present in every reachable Running or Dead state,
and a missing task is modelled as pid 0. -/
def TContainer.Stop (env : Env) (c : TContainer) :
    TError × TContainer × List TAction :=
  if c.IsRoot then (invalidStateErr c.State, c, [])
  else
    let c' := c.reconcile
    if !(c'.State == EContainerState.Running || c'.State == EContainerState.Dead) then
      (invalidStateErr c'.State, c', [])
    else
      let pid := (c'.Task.map (fun t => t.pid)).getD 0
      let ka := c'.KillAll env
      (TError.success,
       { c' with LeafCgroups := [], State := EContainerState.Stopped },
       ka.2 ++ [TAction.ackExit pid])

/-- TContainer::Pause (lines 340-353). -/
def TContainer.Pause (env : Env) (c : TContainer) :
    TError × TContainer × List TAction :=
  if c.IsRoot then (invalidStateErr c.State, c, [])
  else
    let c' := c.reconcile
    if c'.State != EContainerState.Running then (invalidStateErr c'.State, c', [])
    else
      let cg := c'.GetLeafCgroup TSubsystem.freezer
      let e := env.freeze cg
      if !e.ok then (e, c', [TAction.freeze cg])
      else (TError.success, { c' with State := EContainerState.Paused },
            [TAction.freeze cg])

/-- TContainer::Resume (lines 355-369).  Note: unlike Stop and Pause,
Resume performs no root check. -/
def TContainer.Resume (env : Env) (c : TContainer) :
    TError × TContainer × List TAction :=
  let c' := c.reconcile
  if c'.State != EContainerState.Paused then (invalidStateErr c'.State, c', [])
  else
    let cg := c'.GetLeafCgroup TSubsystem.freezer
    let e := env.unfreeze cg
    if !e.ok then (e, c', [TAction.unfreeze cg])
    else (TError.success, { c' with State := EContainerState.Running },
          [TAction.unfreeze cg])

/-- The TData handlers (lines 24-112).  Each maps the container (and the
environment, for the cgroup-usage and log-file reads) to a string. -/
def TData.State (_ : Env) (c : TContainer) : String := ContainerStateName c.State

def TData.RootPid (_ : Env) (c : TContainer) : String :=
  match c.Task with
  | some t => toString t.pid
  | none => "-1"

def TData.ExitStatus (_ : Env) (c : TContainer) : String :=
  match c.Task with
  | some t => if !t.running then toString t.exitStatus.Status else "-1"
  | none => "-1"

def TData.StartErrno (_ : Env) (c : TContainer) : String :=
  match c.Task with
  | some t => if !t.running then toString t.exitStatus.Error else "-1"
  | none => "-1"

def TData.Stdout (env : Env) (c : TContainer) : String :=
  match c.Task with
  | some _ => env.taskStdout
  | none => ""

def TData.Stderr (env : Env) (c : TContainer) : String :=
  match c.Task with
  | some _ => env.taskStderr
  | none => ""

def TData.CpuUsage (env : Env) (c : TContainer) : String :=
  match env.usage (c.GetLeafCgroup TSubsystem.cpuacct) with
  | some v => toString v
  | none => "-1"

def TData.MemUsage (env : Env) (c : TContainer) : String :=
  match env.usage (c.GetLeafCgroup TSubsystem.memory) with
  | some v => toString v
  | none => "-1"

/-- One entry of the DataSpec table (lines 114-123). -/
structure TDataSpec where
  description : String
  rootValid : Bool
  handler : Env → TContainer → String
  valid : List EContainerState

/-- The DataSpec table (lines 114-123) as a lookup function. -/
def DataSpec (name : String) : Option TDataSpec :=
  if name == "state" then
    some ⟨"container state", true, TData.State,
      [EContainerState.Stopped, EContainerState.Dead, EContainerState.Running,
       EContainerState.Paused]⟩
  else if name == "exit_status" then
    some ⟨"container exit status", false, TData.ExitStatus, [EContainerState.Dead]⟩
  else if name == "start_errno" then
    some ⟨"container start error", false, TData.StartErrno, [EContainerState.Stopped]⟩
  else if name == "root_pid" then
    some ⟨"root process id", false, TData.RootPid,
      [EContainerState.Running, EContainerState.Paused]⟩
  else if name == "stdout" then
    some ⟨"return task stdout", false, TData.Stdout,
      [EContainerState.Running, EContainerState.Paused, EContainerState.Dead]⟩
  else if name == "stderr" then
    some ⟨"return task stderr", false, TData.Stderr,
      [EContainerState.Running, EContainerState.Paused, EContainerState.Dead]⟩
  else if name == "cpu_usage" then
    some ⟨"return consumed CPU time in nanoseconds", true, TData.CpuUsage,
      [EContainerState.Running, EContainerState.Paused, EContainerState.Dead]⟩
  else if name == "memory_usage" then
    some ⟨"return consumed memory in bytes", true, TData.MemUsage,
      [EContainerState.Running, EContainerState.Paused, EContainerState.Dead]⟩
  else none

/-- TContainer::GetData (lines 371-383): unknown key, then root
validity, then the state gate against the raw State, then the handler. -/
def TContainer.GetData (env : Env) (c : TContainer) (name : String) :
    Except TError String :=
  match DataSpec name with
  | none => Except.error ⟨EError.InvalidValue, "invalid container data"⟩
  | some ds =>
    if c.IsRoot && !ds.rootValid then
      Except.error ⟨EError.InvalidData, "invalid data for root container"⟩
    else if !(ds.valid.contains c.State) then
      Except.error ⟨EError.InvalidState,
        "invalid container state " ++ ContainerStateName c.State⟩
    else Except.ok (ds.handler env c)

/-- TContainer::GetProperty (lines 385-391). -/
def TContainer.GetProperty (c : TContainer) (property : String) :
    Except TError String :=
  if c.IsRoot then
    Except.error ⟨EError.InvalidProperty, "no properties for root container"⟩
  else Except.ok (c.Spec.get property)

/-- TContainer::SetProperty (lines 393-401).  Spec::Set is not in src/;
its validation outcome comes from the environment and, on success, the
property is stored. -/
def TContainer.SetProperty (env : Env) (c : TContainer) (property value : String) :
    TError × TContainer :=
  if c.IsRoot then (⟨EError.InvalidValue, "Can't set property for root"⟩, c)
  else if c.State != EContainerState.Stopped && !(c.Spec.isDynamic property) then
    (⟨EError.InvalidValue,
      "Can't set dynamic property " ++ property ++ " for running container"⟩, c)
  else
    let e := env.specSet property value
    if e.ok then (e, { c with Spec := c.Spec.set property value }) else (e, c)

/-- TContainer::DeliverExitStatus (lines 478-489).  TTask's own
DeliverExitStatus is in task.cpp, not in src/; modelled from the spec
(section 4.5): it records the wait status and marks the task exited. -/
def TContainer.DeliverExitStatus (c : TContainer) (pid status : Int) :
    Bool × TContainer :=
  if c.State != EContainerState.Running then (false, c)
  else
    match c.Task with
    | none => (false, c)
    | some t =>
      if t.pid != pid then (false, c)
      else
        (true,
         { c with
             Task := some { t with running := false,
                                   exitStatus := { t.exitStatus with Status := status } },
             State := EContainerState.Dead })

/-- StringToInt from util/string (string.cpp is not in src/): parse an
integer, failing on malformed input. -/
def StringToInt (s : String) : Option Int := s.toInt?

/-- The root_pid lookup of Restore (lines 410-420): `started` is false
iff the internal slot is absent or unparseable. -/
def parsedRootPid (s : TSpec) : Option Int :=
  match s.getInternal "root_pid" with
  | none => none
  | some str => StringToInt str

/-- TContainer::Restore (lines 403-466). -/
def TContainer.Restore (env : Env) (c : TContainer) (node : List (String × String)) :
    TError × TContainer × List TAction :=
  match env.specRestore node with
  | Except.error e => (e, c, [])
  | Except.ok spec =>
    let c := { c with Spec := spec }
    let started := parsedRootPid c.Spec
    let c := { c with State := EContainerState.Stopped }
    match started with
    | some pid =>
      let pc := c.PrepareCgroups env
      let c := pc.2.1
      if !pc.1.ok then (pc.1, c, pc.2.2)
      else
        let pt := c.PrepareTask env
        let c := pt.2
        if !pt.1.ok then (pt.1, c, pc.2.2)
        else
          let e := env.taskRestore pid
          if !e.ok then
            let c := { c with Task := none }
            let ka := c.KillAll env
            (e, c, pc.2.2 ++ ka.2)
          else
            let running := env.restoredTaskRunning
            let c := { c with Task := some { newTask with pid := pid, running := running },
                              State := if running then EContainerState.Running
                                       else EContainerState.Stopped }
            let c := if c.State == EContainerState.Running then
                       { c with MaybeReturnedOk := true }
                     else c
            (TError.success, c, pc.2.2)
    | none =>
      if c.IsAlive env then
        let ka := c.KillAll env
        let st := c.Start env
        (st.1, st.2.1, ka.2 ++ st.2.2)
      else
        let ka := c.KillAll env
        (TError.success, c, ka.2)

/-- The Holder's `std::map<std::string, std::shared_ptr<TContainer>>` is
modelled as an association list sorted by key; a null shared_ptr is
`none`.  `mapFind` is map::find, `mapIndex` is operator[] (which inserts
a null entry for an absent key and returns the stored value), `mapSet`
is assignment through operator[]. -/
def mapFind : List (String × Option TContainer) → String →
    Option (Option TContainer)
  | [], _ => none
  | (k', v) :: rest, k => if k == k' then some v else mapFind rest k

def mapIndex : List (String × Option TContainer) → String →
    Option TContainer × List (String × Option TContainer)
  | [], k => (none, [(k, none)])
  | (k', v) :: rest, k =>
    if k < k' then (none, (k, none) :: (k', v) :: rest)
    else if k == k' then (v, (k', v) :: rest)
    else
      let r := mapIndex rest k
      (r.1, (k', v) :: r.2)

def mapSet : List (String × Option TContainer) → String → Option TContainer →
    List (String × Option TContainer)
  | [], k, v => [(k, v)]
  | (k', v') :: rest, k, v =>
    if k < k' then (k, v) :: (k', v') :: rest
    else if k == k' then (k', v) :: rest
    else (k', v') :: mapSet rest k v

/-- The container registry. -/
structure TContainerHolder where
  Containers : List (String × Option TContainer)
deriving DecidableEq, Repr

/-- TContainerHolder::ValidName (lines 509-520): the reserved root name,
or a non-empty name of at most 128 characters over [A-Za-z0-9_]. -/
def ValidName (name : String) : Bool :=
  if name == ROOT_CONTAINER then true
  else if name.length == 0 then false
  else if 128 < name.length then false
  else name.data.all (fun ch => ch.isAlphanum || ch == '_')

/-- TContainerHolder::Create (lines 522-536).  TContainer::Create logs
and calls Spec.Create (the persistence registration), whose outcome is
the `specCreate` oracle.  Note the collision check is
`Containers[name] == nullptr` through operator[], which inserts a null
entry for an absent key -- and that entry is not removed when
Spec.Create fails. -/
def TContainerHolder.Create (env : Env) (h : TContainerHolder) (name : String) :
    TError × TContainerHolder :=
  if !(ValidName name) then
    (⟨EError.InvalidValue, "invalid container name " ++ name⟩, h)
  else
    let idx := mapIndex h.Containers name
    let h1 : TContainerHolder := ⟨idx.2⟩
    match idx.1 with
    | none =>
      let c := TContainer.new name
      let e := env.specCreate name
      if !e.ok then (e, h1)
      else (TError.success, ⟨mapSet h1.Containers name (some c)⟩)
    | some _ =>
      (⟨EError.InvalidValue, "container " ++ name ++ " already exists"⟩, h1)

/-- TContainerHolder::Get (lines 538-543): a missing key and a stored
null handle are both returned as a null handle. -/
def TContainerHolder.Get (h : TContainerHolder) (name : String) :
    Option TContainer :=
  match mapFind h.Containers name with
  | none => none
  | some v => v

/-- TContainerHolder::Destroy (lines 545-548). -/
def TContainerHolder.Destroy (h : TContainerHolder) (name : String) :
    TContainerHolder :=
  if name != ROOT_CONTAINER then
    ⟨h.Containers.filter (fun e => e.1 != name)⟩
  else h

/-- TContainerHolder::Restore (lines 559-568). -/
def TContainerHolder.Restore (env : Env) (h : TContainerHolder) (name : String)
    (node : List (String × String)) : TError × TContainerHolder × List TAction :=
  let c := TContainer.new name
  let r := (c.Restore env node)
  if !r.1.ok then (r.1, h, r.2.2)
  else (TError.success, ⟨mapSet h.Containers name (some r.2.1)⟩, r.2.2)

/-- The iteration of TContainerHolder::DeliverExitStatus (lines 570-576)
over the map entries.  On a stored null handle the source would
dereference a null pointer (undefined behavior); that case is modelled
as not claiming the status, and the holder theorems assume no null
entries. -/
def deliverList : List (String × Option TContainer) → Int → Int →
    Bool × List (String × Option TContainer)
  | [], _, _ => (false, [])
  | (n, oc) :: rest, pid, status =>
    match oc with
    | some c =>
      let d := c.DeliverExitStatus pid status
      if d.1 then (true, (n, some d.2) :: rest)
      else
        let r := deliverList rest pid status
        (r.1, (n, oc) :: r.2)
    | none =>
      let r := deliverList rest pid status
      (r.1, (n, none) :: r.2)

/-- TContainerHolder::DeliverExitStatus: forward to the containers in
map order until one claims the status. -/
def TContainerHolder.DeliverExitStatus (h : TContainerHolder) (pid status : Int) :
    Bool × TContainerHolder :=
  let r := deliverList h.Containers pid status
  (r.1, ⟨r.2⟩)

/-- The four client lifecycle operations of the section 4.3 table. -/
inductive ContainerOp where
  | start
  | stop
  | pause
  | resume
deriving DecidableEq, Repr

def applyOp (env : Env) (c : TContainer) : ContainerOp → TError × TContainer × List TAction
  | ContainerOp.start => c.Start env
  | ContainerOp.stop => c.Stop env
  | ContainerOp.pause => c.Pause env
  | ContainerOp.resume => c.Resume env

/-- The (state, op) pairs of the transition table in spec section 4.3. -/
def listedPair : EContainerState → ContainerOp → Bool
  | EContainerState.Stopped, ContainerOp.start => true
  | EContainerState.Running, ContainerOp.stop => true
  | EContainerState.Dead, ContainerOp.stop => true
  | EContainerState.Running, ContainerOp.pause => true
  | EContainerState.Paused, ContainerOp.resume => true
  | _, _ => false

/-- An environment in which every external call succeeds. -/
def env0 : Env :=
  { cgCreate := fun _ => TError.success
    useHierarchy := fun _ => TError.success
    hasLowLimitKnob := false
    setKnob := fun _ _ _ => TError.success
    taskEnvPrepare := TError.success
    taskStart := Except.ok 42
    freeze := fun _ => TError.success
    unfreeze := fun _ => TError.success
    getTasks := fun _ => Except.ok []
    getProcesses := fun _ => []
    usage := fun _ => some 0
    taskStdout := ""
    taskStderr := ""
    specCreate := fun _ => TError.success
    specRestore := fun _ => Except.ok emptySpec
    taskRestore := fun _ => TError.success
    restoredTaskRunning := true
    specSet := fun _ _ => TError.success }

/-- env0, except that writing the memory.limit_in_bytes knob fails. -/
def envKnobFail : Env :=
  { env0 with
      setKnob := fun _ knob _ =>
        if knob == "memory.limit_in_bytes" then ⟨EError.Unknown, "write failed"⟩
        else TError.success }

/-- env0, except that the persistent-record creation fails. -/
def envPersistFail : Env :=
  { env0 with specCreate := fun _ => ⟨EError.Unknown, "kv write failed"⟩ }

/-- A container is task-consistent when a Running state is backed by a
live task; CheckState's silent downgrade then does nothing. -/
theorem reconcile_of_consistent (c : TContainer)
    (h : c.State = EContainerState.Running → taskIsRunning c.Task = true) :
    c.reconcile = c := by
  unfold TContainer.reconcile
  by_cases hs : c.State = EContainerState.Running
  · simp [hs, h hs]
  · simp [hs]

theorem clearFlag_eq_self (c : TContainer) (h : c.MaybeReturnedOk = false) :
    { c with MaybeReturnedOk := false } = c := by
  cases c
  simp_all

/-- C1 counterexample: (Stopped, Pause) is not in the section 4.3 table,
and Pause on a Stopped container returns an error of kind InvalidValue,
not InvalidState as the claim states. -/
theorem c1_counterexample :
    listedPair (TContainer.new "e").State ContainerOp.pause = false ∧
    (applyOp env0 (TContainer.new "e") ContainerOp.pause).1.kind
      = EError.InvalidValue ∧
    (applyOp env0 (TContainer.new "e") ContainerOp.pause).1.kind
      ≠ EError.InvalidState := by
  refine ⟨rfl, rfl, ?_⟩
  decide

/-- C1 (amended): for every container whose Running state is backed by a
live task and whose MaybeReturnedOk flag is clear, invoking Start, Stop,
Pause or Resume in a state for which the section 4.3 table lists no
transition returns an error of kind InvalidValue (not InvalidState) and
leaves the container unchanged (same State, Spec, Task, LeafCgroups)
with no kernel action performed. -/
theorem c1_invalid_pairs (env : Env) (c : TContainer) (op : ContainerOp)
    (hcons : c.State = EContainerState.Running → taskIsRunning c.Task = true)
    (hflag : c.MaybeReturnedOk = false)
    (hop : listedPair c.State op = false) :
    (applyOp env c op).1.kind = EError.InvalidValue ∧
    (applyOp env c op).2.1 = c ∧ (applyOp env c op).2.2 = [] := by
  have hrec := reconcile_of_consistent c hcons
  have hclear := clearFlag_eq_self c hflag
  cases op <;>
    cases hstate : c.State <;>
      simp_all [applyOp, TContainer.Start, TContainer.Stop, TContainer.Pause,
        TContainer.Resume, TContainer.CheckState, listedPair, invalidStateErr]

/-- C1 witness: the amended theorem applied to Pause on a concrete
Stopped container. -/
theorem c1_witness :
    (applyOp env0 (TContainer.new "e") ContainerOp.pause).1.kind
      = EError.InvalidValue ∧
    (applyOp env0 (TContainer.new "e") ContainerOp.pause).2.1
      = TContainer.new "e" ∧
    (applyOp env0 (TContainer.new "e") ContainerOp.pause).2.2 = [] :=
  c1_invalid_pairs env0 (TContainer.new "e") ContainerOp.pause (by decide) rfl
    (by decide)

/-- The freshly created ROOT container. -/
def root0 : TContainer := TContainer.new ROOT_CONTAINER

/-- C3 counterexample: on ROOT, GetProperty fails with InvalidProperty
(not InvalidValue), and Resume -- which performs no root check -- on a
Paused ROOT succeeds and moves it to Running. -/
theorem c3_counterexample :
    root0.GetProperty "command"
      = Except.error ⟨EError.InvalidProperty, "no properties for root container"⟩ ∧
    (TContainer.Resume env0 { root0 with State := EContainerState.Paused }).1
      = TError.success ∧
    (TContainer.Resume env0 { root0 with State := EContainerState.Paused }).2.1.State
      = EContainerState.Running :=
  ⟨rfl, rfl, rfl⟩

/-- C3 (amended): for the ROOT container, Stop, Pause and SetProperty
fail with InvalidValue in every state and leave the container unchanged
with no kernel action; GetProperty fails with InvalidProperty;
Resume, which has no root check, fails with InvalidValue in every state
other than Paused (leaving at most the stale-Running downgrade), while
on a Paused ROOT it proceeds like any other container. -/
theorem c3_root_ops (env : Env) (c : TContainer) (h : c.IsRoot = true) :
    ((c.Stop env).1.kind = EError.InvalidValue ∧ (c.Stop env).2.1 = c ∧
      (c.Stop env).2.2 = []) ∧
    ((c.Pause env).1.kind = EError.InvalidValue ∧ (c.Pause env).2.1 = c ∧
      (c.Pause env).2.2 = []) ∧
    (∀ p v, (c.SetProperty env p v).1.kind = EError.InvalidValue ∧
      (c.SetProperty env p v).2 = c) ∧
    (∀ p, c.GetProperty p
      = Except.error ⟨EError.InvalidProperty, "no properties for root container"⟩) ∧
    (c.State ≠ EContainerState.Paused →
      (c.Resume env).1.kind = EError.InvalidValue ∧
      (c.Resume env).2.1 = c.reconcile ∧ (c.Resume env).2.2 = []) := by
  refine ⟨?_, ?_, ?_, ?_, ?_⟩
  · simp [TContainer.Stop, h, invalidStateErr]
  · simp [TContainer.Pause, h, invalidStateErr]
  · intro p v
    simp [TContainer.SetProperty, h]
  · intro p
    simp [TContainer.GetProperty, h]
  · intro hp
    have hne : (c.reconcile).State ≠ EContainerState.Paused := by
      unfold TContainer.reconcile
      split <;> simp_all
    simp [TContainer.Resume, hne, invalidStateErr]

/-- C3 witness: the amended theorem applied to the freshly created ROOT
container. -/
theorem c3_witness :
    ((root0.Stop env0).1.kind = EError.InvalidValue ∧ (root0.Stop env0).2.1 = root0 ∧
      (root0.Stop env0).2.2 = []) ∧
    ((root0.Pause env0).1.kind = EError.InvalidValue ∧ (root0.Pause env0).2.1 = root0 ∧
      (root0.Pause env0).2.2 = []) ∧
    (∀ p v, (root0.SetProperty env0 p v).1.kind = EError.InvalidValue ∧
      (root0.SetProperty env0 p v).2 = root0) ∧
    (∀ p, root0.GetProperty p
      = Except.error ⟨EError.InvalidProperty, "no properties for root container"⟩) ∧
    (root0.State ≠ EContainerState.Paused →
      (root0.Resume env0).1.kind = EError.InvalidValue ∧
      (root0.Resume env0).2.1 = root0.reconcile ∧ (root0.Resume env0).2.2 = []) :=
  c3_root_ops env0 root0 rfl

/-- The kind of the error a GetData call returned, if any. -/
def exceptKind : Except TError String → Option EError
  | Except.error e => some e.kind
  | Except.ok _ => none

/-- A non-ROOT container left in state Running with no Task: the stale
state GetData is claimed to reconcile. -/
def staleRunning : TContainer :=
  { TContainer.new "a" with State := EContainerState.Running }

/-- C5 counterexample: on a stale-Running container, GetData of
start_errno fails with InvalidState against the raw Running state; had
the state been reconciled to Stopped first, as the claim states, the
gate would have passed and the read returned "-1". -/
theorem c5_counterexample :
    staleRunning.Task = none ∧
    staleRunning.GetData env0 "start_errno"
      = Except.error ⟨EError.InvalidState, "invalid container state running"⟩ ∧
    staleRunning.reconcile.State = EContainerState.Stopped ∧
    staleRunning.reconcile.GetData env0 "start_errno" = Except.ok "-1" :=
  ⟨rfl, rfl, rfl, rfl⟩

/-- C5 (amended): GetData does not reconcile a stale Running state; the
key's state gate is evaluated against the raw State (the Running →
Stopped downgrade lives in CheckState, used only by the lifecycle
gates): GetData returns InvalidState exactly when the raw State is
outside the key's allowed set. -/
theorem c5_raw_state_gate (env : Env) (c : TContainer) (name : String)
    (ds : TDataSpec) (hds : DataSpec name = some ds)
    (hroot : ¬(c.IsRoot = true ∧ ds.rootValid = false)) :
    exceptKind (c.GetData env name) = some EError.InvalidState ↔
      c.State ∉ ds.valid := by
  have hb : (c.IsRoot && !ds.rootValid) = false := by
    cases hr : c.IsRoot <;> cases hrv : ds.rootValid <;> simp_all
  unfold TContainer.GetData
  rw [hds]
  by_cases hv : c.State ∈ ds.valid <;> simp [hb, hv, exceptKind]

/-- C5 witness: the amended theorem at a concrete Stopped container and
the exit_status key. -/
theorem c5_witness :
    exceptKind ((TContainer.new "a").GetData env0 "exit_status")
      = some EError.InvalidState ↔
    (TContainer.new "a").State ∉ [EContainerState.Dead] :=
  c5_raw_state_gate env0 (TContainer.new "a") "exit_status" _ rfl (by decide)

/-- The eight known data keys of the claim (the section 4.4 table). -/
def knownDataKeys : List String :=
  ["state", "exit_status", "start_errno", "root_pid", "stdout", "stderr",
   "cpu_usage", "memory_usage"]

/-- The allowed-state sets as the claim (section 4.4 table) lists them. -/
def specAllowedStates (name : String) : List EContainerState :=
  if name == "state" then
    [EContainerState.Stopped, EContainerState.Dead, EContainerState.Running,
     EContainerState.Paused]
  else if name == "exit_status" then [EContainerState.Dead]
  else if name == "start_errno" then [EContainerState.Stopped]
  else if name == "root_pid" then [EContainerState.Running, EContainerState.Paused]
  else if name == "stdout" then
    [EContainerState.Running, EContainerState.Paused, EContainerState.Dead]
  else if name == "stderr" then
    [EContainerState.Running, EContainerState.Paused, EContainerState.Dead]
  else if name == "cpu_usage" then
    [EContainerState.Running, EContainerState.Paused, EContainerState.Dead]
  else if name == "memory_usage" then
    [EContainerState.Running, EContainerState.Paused, EContainerState.Dead]
  else []

/-- The root-valid column as the claim (section 4.4 table) lists it. -/
def specRootValid (name : String) : Bool :=
  name == "state" || name == "cpu_usage" || name == "memory_usage"

/-- The DataSpec table of the source agrees, key by key, with the
claim's table. -/
theorem dataSpec_matches (name : String) :
    ((DataSpec name).isSome = true ↔ name ∈ knownDataKeys) ∧
    ∀ ds, DataSpec name = some ds →
      ds.valid = specAllowedStates name ∧ ds.rootValid = specRootValid name := by
  unfold DataSpec knownDataKeys specAllowedStates specRootValid
  split_ifs with h1 h2 h3 h4 h5 h6 h7 h8 <;> simp_all

/-- C6: for every container and key name, GetData fails with
InvalidValue on the eight-key table miss, with InvalidData for a
non-root-valid key on ROOT, with InvalidState when the current state is
outside the key's allowed-state set of the section 4.4 table, and
otherwise succeeds with the key's value. -/
theorem c6_getdata_errors (env : Env) (c : TContainer) (name : String) :
    (name ∉ knownDataKeys →
      exceptKind (c.GetData env name) = some EError.InvalidValue) ∧
    (name ∈ knownDataKeys → c.IsRoot = true → specRootValid name = false →
      exceptKind (c.GetData env name) = some EError.InvalidData) ∧
    (name ∈ knownDataKeys →
      (c.IsRoot = true → specRootValid name = true) →
      c.State ∉ specAllowedStates name →
      exceptKind (c.GetData env name) = some EError.InvalidState) ∧
    (name ∈ knownDataKeys →
      (c.IsRoot = true → specRootValid name = true) →
      c.State ∈ specAllowedStates name →
      ∃ v, c.GetData env name = Except.ok v) := by
  obtain ⟨hk, hmatch⟩ := dataSpec_matches name
  cases h : DataSpec name with
  | none =>
    rw [h] at hk
    refine ⟨fun _ => ?_, fun hc => ?_, fun hc => ?_, fun hc => ?_⟩ <;>
      simp_all [TContainer.GetData, exceptKind]
  | some ds =>
    rw [h] at hk
    obtain ⟨hv, hr⟩ := hmatch ds h
    have hknown : name ∈ knownDataKeys := by simp_all
    refine ⟨fun hfalse => absurd hknown hfalse, fun _ hroot hrv => ?_,
      fun _ hroot hst => ?_, fun _ hroot hst => ?_⟩
    · have hbt : (c.IsRoot && !ds.rootValid) = true := by simp [hroot, hr, hrv]
      simp [TContainer.GetData, h, hbt, exceptKind]
    · have hb : (c.IsRoot && !ds.rootValid) = false := by
        cases hcr : c.IsRoot
        · simp
        · simp [hr, hroot hcr]
      have hst' : c.State ∉ ds.valid := by rw [hv]; exact hst
      simp [TContainer.GetData, h, hb, hst', exceptKind]
    · have hb : (c.IsRoot && !ds.rootValid) = false := by
        cases hcr : c.IsRoot
        · simp
        · simp [hr, hroot hcr]
      have hst' : c.State ∈ ds.valid := by rw [hv]; exact hst
      refine ⟨ds.handler env c, ?_⟩
      simp [TContainer.GetData, h, hb, hst']

/-- C6 witness: the theorem at the state key on a concrete Stopped
container. -/
theorem c6_witness :
    ("state" ∉ knownDataKeys →
      exceptKind ((TContainer.new "a").GetData env0 "state")
        = some EError.InvalidValue) ∧
    ("state" ∈ knownDataKeys → (TContainer.new "a").IsRoot = true →
      specRootValid "state" = false →
      exceptKind ((TContainer.new "a").GetData env0 "state")
        = some EError.InvalidData) ∧
    ("state" ∈ knownDataKeys →
      ((TContainer.new "a").IsRoot = true → specRootValid "state" = true) →
      (TContainer.new "a").State ∉ specAllowedStates "state" →
      exceptKind ((TContainer.new "a").GetData env0 "state")
        = some EError.InvalidState) ∧
    ("state" ∈ knownDataKeys →
      ((TContainer.new "a").IsRoot = true → specRootValid "state" = true) →
      (TContainer.new "a").State ∈ specAllowedStates "state" →
      ∃ v, (TContainer.new "a").GetData env0 "state" = Except.ok v) :=
  c6_getdata_errors env0 (TContainer.new "a") "state"

/-- With the torn-ack flag clear and a live task, Start on a Running
container stops at the Stopped-state gate. -/
theorem start_gate_running (env : Env) (d : TContainer)
    (hf : d.MaybeReturnedOk = false) (hs : d.State = EContainerState.Running)
    (ht : taskIsRunning d.Task = true) :
    d.Start env = (invalidStateErr EContainerState.Running, d, []) := by
  have hrec : d.reconcile = d := reconcile_of_consistent d (fun _ => ht)
  have hclear : ({ d with MaybeReturnedOk := false } : TContainer) = d :=
    clearFlag_eq_self d hf
  simp only [TContainer.Start, hf, Bool.and_false]
  rw [hclear]
  simp [TContainer.CheckState, hrec, hs]

/-- C7: on a container restored as Running with MaybeReturnedOk set,
Start returns success at once, changing nothing but the flag, performs
no kernel action, and its result does not depend on the environment at
all; the flag is one-shot: with the flag cleared and the task live, the
next Start hits the normal Stopped-state gate and fails. -/
theorem c7_maybe_returned_ok (env : Env) (c : TContainer)
    (hs : c.State = EContainerState.Running) (hf : c.MaybeReturnedOk = true) :
    c.Start env = (TError.success, { c with MaybeReturnedOk := false }, []) ∧
    (∀ env', c.Start env' = c.Start env) ∧
    (taskIsRunning c.Task = true →
      ({ c with MaybeReturnedOk := false } : TContainer).Start env
        = (invalidStateErr EContainerState.Running,
           { c with MaybeReturnedOk := false }, [])) := by
  refine ⟨?_, ?_, ?_⟩
  · simp [TContainer.Start, hs, hf]
  · intro env'
    simp [TContainer.Start, hs, hf]
  · intro ht
    exact start_gate_running env { c with MaybeReturnedOk := false } (by simp)
      (by simpa using hs) (by simpa using ht)

/-- A container restored as Running: live task, torn-ack flag set. -/
def maybeRunning : TContainer :=
  { TContainer.new "a" with
      State := EContainerState.Running,
      MaybeReturnedOk := true,
      Task := some { newTask with pid := 7, running := true } }

/-- C7 witness: the theorem at a concrete restored-as-Running container. -/
theorem c7_witness :
    TContainer.Start env0 maybeRunning
      = (TError.success, { maybeRunning with MaybeReturnedOk := false }, []) ∧
    (∀ env', TContainer.Start env' maybeRunning
      = TContainer.Start env0 maybeRunning) ∧
    (taskIsRunning maybeRunning.Task = true →
      ({ maybeRunning with MaybeReturnedOk := false } : TContainer).Start env0
        = (invalidStateErr EContainerState.Running,
           { maybeRunning with MaybeReturnedOk := false }, [])) :=
  c7_maybe_returned_ok env0 maybeRunning rfl rfl

/-- CheckState's downgrade either leaves a container alone or moves a
stale Running container to Stopped. -/
theorem reconcile_state (c : TContainer) :
    c.reconcile = c ∨
    (c.State = EContainerState.Running ∧
      c.reconcile = { c with State := EContainerState.Stopped }) := by
  unfold TContainer.reconcile
  split_ifs with h
  · right
    refine ⟨?_, rfl⟩
    simp at h
    exact h.1
  · left
    rfl

/-- PrepareCgroups only rewrites the LeafCgroups field: the three leaves
on the non-create-failure paths, the empty map after a create failure. -/
theorem prepareCgroups_container (env : Env) (c : TContainer) :
    (c.PrepareCgroups env).2.1
      = { c with LeafCgroups :=
            if (createLeaves env (startLeaves c)).1.ok then startLeaves c
            else [] } := by
  unfold TContainer.PrepareCgroups
  split_ifs <;> simp_all <;> split_ifs <;> simp_all

/-- PrepareTask only installs the fresh task, and only on success. -/
theorem prepareTask_container (env : Env) (c : TContainer) :
    (c.PrepareTask env).2
      = if env.taskEnvPrepare.ok then { c with Task := some newTask } else c := by
  unfold TContainer.PrepareTask
  split_ifs <;> simp_all

set_option maxHeartbeats 1000000 in
/-- Start can only leave the state unchanged (early returns) or move it
to Stopped (the CheckState downgrade) or Running. -/
theorem start_result_state (env : Env) (c : TContainer) :
    (c.Start env).2.1.State = c.State ∨
    (c.Start env).2.1.State = EContainerState.Stopped ∨
    (c.Start env).2.1.State = EContainerState.Running := by
  simp only [TContainer.Start, TContainer.CheckState]
  rcases reconcile_state ({ c with MaybeReturnedOk := false } : TContainer)
    with h | ⟨hs, h⟩ <;>
    rw [h] <;>
    rcases henv : env.taskStart with e | pid <;>
    by_cases hprep : env.taskEnvPrepare.ok = true <;>
    split_ifs <;>
    simp_all [prepareCgroups_container, prepareTask_container]

theorem stop_result_state (env : Env) (c : TContainer) :
    (c.Stop env).2.1.State = c.State ∨
    (c.Stop env).2.1.State = EContainerState.Stopped := by
  simp only [TContainer.Stop]
  rcases reconcile_state c with h | ⟨hs, h⟩ <;>
    rw [h] <;> split_ifs <;> simp_all

theorem pause_result_state (env : Env) (c : TContainer) :
    (c.Pause env).2.1.State = c.State ∨
    (c.Pause env).2.1.State = EContainerState.Stopped ∨
    (c.Pause env).2.1.State = EContainerState.Paused := by
  simp only [TContainer.Pause]
  rcases reconcile_state c with h | ⟨hs, h⟩ <;>
    rw [h] <;> split_ifs <;> simp_all

theorem resume_result_state (env : Env) (c : TContainer) :
    (c.Resume env).2.1.State = c.State ∨
    (c.Resume env).2.1.State = EContainerState.Stopped ∨
    (c.Resume env).2.1.State = EContainerState.Running := by
  simp only [TContainer.Resume]
  rcases reconcile_state c with h | ⟨hs, h⟩ <;>
    rw [h] <;> split_ifs <;> simp_all

set_option maxHeartbeats 1000000 in
theorem restore_result_state (env : Env) (c : TContainer)
    (node : List (String × String)) :
    (c.Restore env node).2.1.State = c.State ∨
    (c.Restore env node).2.1.State = EContainerState.Stopped ∨
    (c.Restore env node).2.1.State = EContainerState.Running := by
  simp only [TContainer.Restore]
  rcases hr : env.specRestore node with e | spec
  · simp
  · rcases start_result_state env
        ({ c with Spec := spec, State := EContainerState.Stopped } : TContainer)
      with h | h | h <;>
      rcases hp : parsedRootPid spec with _ | pid <;>
      simp_all [prepareCgroups_container, prepareTask_container] <;>
      split_ifs <;>
      simp_all

/-- The iteration of the holder forwards a status, in map order, until
the first container that claims it; entries before that one are left
exactly as they were. -/
theorem deliverList_no_claim (pid status : Int)
    (l : List (String × Option TContainer))
    (h : ∀ e ∈ l, ∀ cc : TContainer, e.2 = some cc →
      (cc.DeliverExitStatus pid status).1 = false) :
    deliverList l pid status = (false, l) := by
  induction l with
  | nil => rfl
  | cons e rest ih =>
    have hrest := ih (fun e' he' => h e' (List.mem_cons_of_mem e he'))
    obtain ⟨n, oc⟩ := e
    cases oc with
    | none => simp [deliverList, hrest]
    | some cc =>
      have : (cc.DeliverExitStatus pid status).1 = false :=
        h (n, some cc) (List.mem_cons_self _ _) cc rfl
      simp [deliverList, this, hrest]

theorem deliverList_first_claim (pid status : Int)
    (pre post : List (String × Option TContainer)) (n : String) (cc : TContainer)
    (hpre : ∀ e ∈ pre, ∀ c2 : TContainer, e.2 = some c2 →
      (c2.DeliverExitStatus pid status).1 = false)
    (hcc : (cc.DeliverExitStatus pid status).1 = true) :
    deliverList (pre ++ (n, some cc) :: post) pid status
      = (true, pre ++ (n, some (cc.DeliverExitStatus pid status).2) :: post) := by
  induction pre with
  | nil => simp [deliverList, hcc]
  | cons e rest ih =>
    have hrest := ih (fun e' he' => hpre e' (List.mem_cons_of_mem e he'))
    obtain ⟨n', oc⟩ := e
    cases oc with
    | none => simp [deliverList, hrest]
    | some c2 =>
      have : (c2.DeliverExitStatus pid status).1 = false :=
        hpre (n', some c2) (List.mem_cons_self _ _) c2 rfl
      simp [deliverList, this, hrest]

/-- C4: DeliverExitStatus claims a status exactly when the container is
Running with a task whose pid matches; it then records the status and
moves the container to Dead, otherwise it returns false and changes
nothing.  The holder forwards each status in map order until the first
container claims it.  No operation other than exit delivery from
Running ever produces the Dead state. -/
theorem c4_deliver_exit_status (c : TContainer) (pid status : Int) :
    ((c.DeliverExitStatus pid status).1 = true ↔
      c.State = EContainerState.Running ∧ ∃ t, c.Task = some t ∧ t.pid = pid) ∧
    (∀ t, c.State = EContainerState.Running → c.Task = some t → t.pid = pid →
      c.DeliverExitStatus pid status
        = (true,
           { c with
               Task := some { t with running := false, exitStatus := { t.exitStatus with Status := status } },
               State := EContainerState.Dead })) ∧
    ((c.DeliverExitStatus pid status).1 = false →
      (c.DeliverExitStatus pid status).2 = c) ∧
    ((c.DeliverExitStatus pid status).2.State = EContainerState.Dead →
      c.State = EContainerState.Dead ∨ c.State = EContainerState.Running) ∧
    (∀ env op, (applyOp env c op).2.1.State = EContainerState.Dead →
      c.State = EContainerState.Dead) ∧
    (∀ env node, (c.Restore env node).2.1.State = EContainerState.Dead →
      c.State = EContainerState.Dead) ∧
    (∀ l : List (String × Option TContainer),
      (∀ e ∈ l, ∀ cc : TContainer, e.2 = some cc →
        (cc.DeliverExitStatus pid status).1 = false) →
      TContainerHolder.DeliverExitStatus ⟨l⟩ pid status = (false, ⟨l⟩)) ∧
    (∀ (pre post : List (String × Option TContainer)) (n : String)
       (cc : TContainer),
      (∀ e ∈ pre, ∀ c2 : TContainer, e.2 = some c2 →
        (c2.DeliverExitStatus pid status).1 = false) →
      (cc.DeliverExitStatus pid status).1 = true →
      TContainerHolder.DeliverExitStatus ⟨pre ++ (n, some cc) :: post⟩ pid status
        = (true,
           ⟨pre ++ (n, some (cc.DeliverExitStatus pid status).2) :: post⟩)) := by
  refine ⟨?_, ?_, ?_, ?_, ?_, ?_, ?_, ?_⟩
  · unfold TContainer.DeliverExitStatus
    cases ht : c.Task with
    | none => split_ifs <;> simp_all
    | some t => split_ifs <;> simp_all <;> split_ifs <;> simp_all
  · intro t hs ht hp
    simp [TContainer.DeliverExitStatus, hs, ht, hp]
  · unfold TContainer.DeliverExitStatus
    cases ht : c.Task with
    | none => split_ifs <;> simp_all
    | some t => split_ifs <;> simp_all <;> split_ifs <;> simp_all
  · unfold TContainer.DeliverExitStatus
    cases ht : c.Task with
    | none => split_ifs <;> simp_all
    | some t => split_ifs <;> simp_all <;> split_ifs <;> simp_all
  · intro env op hdead
    cases op with
    | start =>
      rcases start_result_state env c with h | h | h <;> simp_all [applyOp]
    | stop =>
      rcases stop_result_state env c with h | h <;> simp_all [applyOp]
    | pause =>
      rcases pause_result_state env c with h | h | h <;> simp_all [applyOp]
    | resume =>
      rcases resume_result_state env c with h | h | h <;> simp_all [applyOp]
  · intro env node hdead
    rcases restore_result_state env c node with h | h | h <;> simp_all
  · intro l h
    simp [TContainerHolder.DeliverExitStatus, deliverList_no_claim pid status l h]
  · intro pre post n cc hpre hcc
    simp [TContainerHolder.DeliverExitStatus,
      deliverList_first_claim pid status pre post n cc hpre hcc]

theorem success_ok : TError.success.ok = true := rfl

/-- Inside PrepareCgroups the memory leaf looked up after the map is
populated is the one the populated map stores. -/
theorem cgc_memLeaf (c : TContainer) :
    ({ c with LeafCgroups := startLeaves c } : TContainer).GetLeafCgroup
      TSubsystem.memory = c.GetLeafCgroup TSubsystem.memory := rfl

/-- The whole cgroup phase of Start succeeded: every leaf create, the
use_hierarchy write, and the memory knob writes. -/
def cgPhaseOk (env : Env) (c : TContainer) : Bool :=
  (createLeaves env (startLeaves c)).1.ok &&
  (env.useHierarchy (c.GetLeafCgroup TSubsystem.memory)).ok &&
  (!env.hasLowLimitKnob ||
    (env.setKnob (c.GetLeafCgroup TSubsystem.memory) "memory.low_limit_in_bytes"
      (c.Spec.get "memory_guarantee")).ok) &&
  (env.setKnob (c.GetLeafCgroup TSubsystem.memory) "memory.limit_in_bytes"
    (c.Spec.get "memory_limit")).ok

/-- C2 counterexample: on a Stopped container, with every leaf create
succeeding and the memory.limit_in_bytes knob write failing, Start
returns the knob error but leaves all three created leaves in
LeafCgroups -- the partially-applied state the claim says is never
observable. -/
theorem c2_counterexample :
    ((TContainer.new "a").Start envKnobFail).1
      = ⟨EError.Unknown, "write failed"⟩ ∧
    ((TContainer.new "a").Start envKnobFail).2.1.LeafCgroups
      = startLeaves (TContainer.new "a") ∧
    startLeaves (TContainer.new "a") ≠ [] ∧
    ((TContainer.new "a").Start envKnobFail).2.1.State
      = EContainerState.Stopped := by
  refine ⟨rfl, rfl, ?_, rfl⟩
  decide

/-- C2 (amended): when Start on a Stopped non-ROOT container fails, the
returned error is the first error encountered and the container's state
is still Stopped; but the unwind of the leaf cgroup map happens only on
a leaf-create failure or a task-launch failure -- on a memory knob
write failure, an empty command, or a task-preparation failure the
three created leaves remain in LeafCgroups. -/
theorem c2_start_failure_unwind (env : Env) (c : TContainer)
    (hstop : c.State = EContainerState.Stopped) (hroot : c.IsRoot = false)
    (hflag : c.MaybeReturnedOk = false)
    (mcg : TCgroup) (hm : mcg = c.GetLeafCgroup TSubsystem.memory)
    (cr : TError × List TAction) (hcr : cr = createLeaves env (startLeaves c))
    (cgc : TContainer) (hcgc : cgc = { c with LeafCgroups := startLeaves c }) :
    (cr.1.ok = false →
      c.Start env = (cr.1, { c with LeafCgroups := [] }, cr.2)) ∧
    (cr.1.ok = true → (env.useHierarchy mcg).ok = false →
      (c.Start env).1 = env.useHierarchy mcg ∧ (c.Start env).2.1 = cgc) ∧
    (cr.1.ok = true → (env.useHierarchy mcg).ok = true →
      env.hasLowLimitKnob = true →
      (env.setKnob mcg "memory.low_limit_in_bytes"
        (c.Spec.get "memory_guarantee")).ok = false →
      (c.Start env).1 = env.setKnob mcg "memory.low_limit_in_bytes"
        (c.Spec.get "memory_guarantee") ∧
      (c.Start env).2.1 = cgc) ∧
    (cr.1.ok = true → (env.useHierarchy mcg).ok = true →
      (env.hasLowLimitKnob = true →
        (env.setKnob mcg "memory.low_limit_in_bytes"
          (c.Spec.get "memory_guarantee")).ok = true) →
      (env.setKnob mcg "memory.limit_in_bytes"
        (c.Spec.get "memory_limit")).ok = false →
      (c.Start env).1 = env.setKnob mcg "memory.limit_in_bytes"
        (c.Spec.get "memory_limit") ∧
      (c.Start env).2.1 = cgc) ∧
    (cgPhaseOk env c = true → (c.Spec.get "command").length = 0 →
      (c.Start env).1 = ⟨EError.InvalidValue, "container command is empty"⟩ ∧
      (c.Start env).2.1 = cgc) ∧
    (cgPhaseOk env c = true → (c.Spec.get "command").length ≠ 0 →
      env.taskEnvPrepare.ok = false →
      (c.Start env).1 = env.taskEnvPrepare ∧ (c.Start env).2.1 = cgc) ∧
    (∀ e, cgPhaseOk env c = true → (c.Spec.get "command").length ≠ 0 →
      env.taskEnvPrepare.ok = true → env.taskStart = Except.error e →
      (c.Start env).1 = e ∧
      (c.Start env).2.1 = { cgc with Task := some newTask, LeafCgroups := [] }) ∧
    ((c.Start env).1.ok = false →
      (c.Start env).2.1.State = EContainerState.Stopped) := by
  have hclear : ({ c with MaybeReturnedOk := false } : TContainer) = c :=
    clearFlag_eq_self c hflag
  have hrec : c.reconcile = c :=
    reconcile_of_consistent c (by simp [hstop])
  have hgate : (c.State == EContainerState.Stopped) = true := by simp [hstop]
  have hearly : (c.State == EContainerState.Running
      || c.State == EContainerState.Dead) = false := by simp [hstop]
  have hroot' : (c.Name == ROOT_CONTAINER) = false := by
    simpa [TContainer.IsRoot] using hroot
  subst hm hcr hcgc
  refine ⟨?_, ?_, ?_, ?_, ?_, ?_, ?_, ?_⟩
  · intro hfail
    simp only [TContainer.Start, TContainer.CheckState]
    rw [hclear]
    simp [success_ok, hrec, hgate, hearly, TContainer.PrepareCgroups, hfail]
  · intro hok huh
    simp only [TContainer.Start, TContainer.CheckState]
    rw [hclear]
    simp [success_ok, hrec, hgate, hearly, TContainer.PrepareCgroups, hok, cgc_memLeaf, huh]
  · intro hok huh hlow hkn
    simp only [TContainer.Start, TContainer.CheckState]
    rw [hclear]
    simp [success_ok, hrec, hgate, hearly, TContainer.PrepareCgroups, hok, cgc_memLeaf, huh, hlow, hkn]
  · intro hok huh hlow hkn
    simp only [TContainer.Start, TContainer.CheckState]
    rw [hclear]
    by_cases hl : env.hasLowLimitKnob
    · simp [success_ok, hrec, hgate, hearly, TContainer.PrepareCgroups, hok, cgc_memLeaf, huh, hl,
        hlow hl, hkn]
    · simp [success_ok, hrec, hgate, hearly, TContainer.PrepareCgroups, hok, cgc_memLeaf, huh, hl, hkn]
  · intro hcg hcmd
    simp only [cgPhaseOk, Bool.and_eq_true, Bool.or_eq_true] at hcg
    obtain ⟨⟨⟨hok, huh⟩, hlow⟩, hkn⟩ := hcg
    simp only [TContainer.Start, TContainer.CheckState]
    rw [hclear]
    by_cases hl : env.hasLowLimitKnob
    · have hlow' : (env.setKnob (c.GetLeafCgroup TSubsystem.memory)
          "memory.low_limit_in_bytes" (c.Spec.get "memory_guarantee")).ok = true := by
        rcases hlow with h | h
        · simp [hl] at h
        · exact h
      simp [success_ok, hrec, hgate, hearly, hroot', TContainer.PrepareCgroups, hok, cgc_memLeaf,
        huh, hl, hlow', hkn, hcmd, TContainer.IsRoot]
    · simp [success_ok, hrec, hgate, hearly, hroot', TContainer.PrepareCgroups, hok, cgc_memLeaf,
        huh, hl, hkn, hcmd, TContainer.IsRoot]
  · intro hcg hcmd hprep
    simp only [cgPhaseOk, Bool.and_eq_true, Bool.or_eq_true] at hcg
    obtain ⟨⟨⟨hok, huh⟩, hlow⟩, hkn⟩ := hcg
    simp only [TContainer.Start, TContainer.CheckState]
    rw [hclear]
    by_cases hl : env.hasLowLimitKnob
    · have hlow' : (env.setKnob (c.GetLeafCgroup TSubsystem.memory)
          "memory.low_limit_in_bytes" (c.Spec.get "memory_guarantee")).ok = true := by
        rcases hlow with h | h
        · simp [hl] at h
        · exact h
      simp [success_ok, hrec, hgate, hearly, hroot', TContainer.PrepareCgroups,
        TContainer.PrepareTask, hok, cgc_memLeaf, huh, hl, hlow', hkn, hcmd, hprep,
        TContainer.IsRoot]
    · simp [success_ok, hrec, hgate, hearly, hroot', TContainer.PrepareCgroups,
        TContainer.PrepareTask, hok, cgc_memLeaf, huh, hl, hkn, hcmd, hprep,
        TContainer.IsRoot]
  · intro e hcg hcmd hprep htask
    simp only [cgPhaseOk, Bool.and_eq_true, Bool.or_eq_true] at hcg
    obtain ⟨⟨⟨hok, huh⟩, hlow⟩, hkn⟩ := hcg
    simp only [TContainer.Start, TContainer.CheckState]
    rw [hclear]
    by_cases hl : env.hasLowLimitKnob
    · have hlow' : (env.setKnob (c.GetLeafCgroup TSubsystem.memory)
          "memory.low_limit_in_bytes" (c.Spec.get "memory_guarantee")).ok = true := by
        rcases hlow with h | h
        · simp [hl] at h
        · exact h
      simp [success_ok, hrec, hgate, hearly, hroot', TContainer.PrepareCgroups,
        TContainer.PrepareTask, hok, cgc_memLeaf, huh, hl, hlow', hkn, hcmd, hprep,
        htask, TContainer.IsRoot]
    · simp [success_ok, hrec, hgate, hearly, hroot', TContainer.PrepareCgroups,
        TContainer.PrepareTask, hok, cgc_memLeaf, huh, hl, hkn, hcmd, hprep,
        htask, TContainer.IsRoot]
  · simp only [TContainer.Start, TContainer.CheckState]
    rw [hclear]
    rcases henv : env.taskStart with e | pid <;>
      split_ifs <;>
      simp_all [prepareCgroups_container, prepareTask_container, hrec, hstop,
        TError.success, TError.ok] <;>
      split_ifs <;>
      simp_all

/-- C8: restoring a persisted non-ROOT entry whose internal root_pid is
absent or unparseable: the container is reinstantiated Stopped with the
restored spec; if the freezer leaf still holds processes, everything in
the leaf is killed (SIGTERM, freeze, SIGKILL, thaw) and Start is
re-issued, returning Start's result; if the leaf is empty, the same
defensive kill-all runs and the container stays Stopped. -/
theorem c8_restore_no_rootpid (env : Env) (c : TContainer)
    (node : List (String × String)) (spec : TSpec)
    (hroot : c.IsRoot = false)
    (hrestore : env.specRestore node = Except.ok spec)
    (hpid : parsedRootPid spec = none)
    (c2 : TContainer)
    (hc2 : c2 = { c with Spec := spec, State := EContainerState.Stopped })
    (fcg : TCgroup) (hf : fcg = c2.GetLeafCgroup TSubsystem.freezer) :
    (env.getProcesses fcg ≠ [] →
      c.Restore env node
        = ((c2.Start env).1, (c2.Start env).2.1,
           (c2.KillAll env).2 ++ (c2.Start env).2.2)) ∧
    (env.getProcesses fcg = [] →
      c.Restore env node = (TError.success, c2, (c2.KillAll env).2)) ∧
    (∀ ts, env.getTasks fcg = Except.ok ts →
      (c2.KillAll env).2
        = [TAction.kill fcg 15, TAction.freeze fcg, TAction.kill fcg 9,
           TAction.unfreeze fcg]) := by
  have hroot' : (c.Name == ROOT_CONTAINER) = false := by
    simpa [TContainer.IsRoot] using hroot
  subst hc2 hf
  refine ⟨?_, ?_, ?_⟩
  · intro hne
    simp [TContainer.Restore, hrestore, hpid, TContainer.IsAlive,
      TContainer.Processes, TContainer.IsRoot, hroot', hne]
  · intro hnil
    simp [TContainer.Restore, hrestore, hpid, TContainer.IsAlive,
      TContainer.Processes, TContainer.IsRoot, hroot', hnil]
  · intro ts hts
    simp [TContainer.KillAll, hts]

/-- An environment in which one process is still alive in every freezer
leaf. -/
def envAlive : Env := { env0 with getProcesses := fun _ => [5] }

/-- The concrete container of the C8 witness after spec restore. -/
def restored0 : TContainer :=
  { TContainer.new "a" with Spec := emptySpec, State := EContainerState.Stopped }

/-- The C8 witness container's freezer leaf. -/
def fcg0 : TCgroup := restored0.GetLeafCgroup TSubsystem.freezer

/-- C8 witness: the theorem at a concrete container and a torn persisted
record, in an environment with a live leftover process. -/
theorem c8_witness :
    (envAlive.getProcesses fcg0 ≠ [] →
      (TContainer.new "a").Restore envAlive []
        = ((restored0.Start envAlive).1, (restored0.Start envAlive).2.1,
           (restored0.KillAll envAlive).2 ++ (restored0.Start envAlive).2.2)) ∧
    (envAlive.getProcesses fcg0 = [] →
      (TContainer.new "a").Restore envAlive []
        = (TError.success, restored0, (restored0.KillAll envAlive).2)) ∧
    (∀ ts, envAlive.getTasks fcg0 = Except.ok ts →
      (restored0.KillAll envAlive).2
        = [TAction.kill fcg0 15, TAction.freeze fcg0, TAction.kill fcg0 9,
           TAction.unfreeze fcg0]) :=
  c8_restore_no_rootpid envAlive (TContainer.new "a") [] emptySpec (by decide)
    rfl rfl restored0 rfl fcg0 rfl

/-- Well-formedness of the std::map model: keys strictly increasing. -/
def sortedKeys (l : List (String × Option TContainer)) : Prop :=
  l.Pairwise (fun a b => a.1 < b.1)

theorem mapFind_eq_none (l : List (String × Option TContainer)) (k : String)
    (h : ∀ e ∈ l, k ≠ e.1) : mapFind l k = none := by
  induction l with
  | nil => rfl
  | cons e rest ih =>
    obtain ⟨k', v⟩ := e
    have hk : k ≠ k' := h (k', v) (List.mem_cons_self _ _)
    simp [mapFind, hk, ih (fun e he => h e (List.mem_cons_of_mem _ he))]

/-- On a sorted map, operator[] returns exactly what find sees: the
stored handle when the key is present, a null handle otherwise. -/
theorem mapIndex_fst_sorted (k : String) (l : List (String × Option TContainer))
    (hs : sortedKeys l) : (mapIndex l k).1 = (mapFind l k).join := by
  induction l with
  | nil => rfl
  | cons e rest ih =>
    obtain ⟨k', v⟩ := e
    rcases List.pairwise_cons.mp hs with ⟨hhead, hrest⟩
    by_cases h1 : k < k'
    · have hne : k ≠ k' := ne_of_lt h1
      have hnone : mapFind rest k =
          none :=
        mapFind_eq_none rest k (fun e he => ne_of_lt (lt_trans h1 (hhead e he)))
      simp [mapIndex, mapFind, h1, hne, hnone]
    · by_cases h2 : k = k'
      · simp [mapIndex, mapFind, h1, h2]
      · simp [mapIndex, mapFind, h1, h2, ih hrest]

/-- On a sorted map, operator[] on a present key leaves the map as it
was. -/
theorem mapIndex_snd_found (k : String) (v : Option TContainer)
    (l : List (String × Option TContainer)) (hs : sortedKeys l)
    (hf : mapFind l k = some v) : (mapIndex l k).2 = l := by
  induction l with
  | nil => simp [mapFind] at hf
  | cons e rest ih =>
    obtain ⟨k', v'⟩ := e
    rcases List.pairwise_cons.mp hs with ⟨hhead, hrest⟩
    by_cases h2 : k = k'
    · have h1 : ¬k < k' := by simp [h2]
      simp [mapIndex, h1, h2]
    · by_cases h1 : k < k'
      · have hnone : mapFind ((k', v') :: rest) k = none := by
          have : mapFind rest k =
              none :=
            mapFind_eq_none rest k
              (fun e he => ne_of_lt (lt_trans h1 (hhead e he)))
          simp [mapFind, h2, this]
        rw [hnone] at hf
        cases hf
      · have hfr : mapFind rest k = some v := by simpa [mapFind, h2] using hf
        simp [mapIndex, h1, h2, ih hrest hfr]

theorem mapFind_mapSet_self (k : String) (v : Option TContainer)
    (l : List (String × Option TContainer)) :
    mapFind (mapSet l k v) k = some v := by
  induction l with
  | nil => simp [mapSet, mapFind]
  | cons e rest ih =>
    obtain ⟨k', v'⟩ := e
    by_cases h1 : k < k'
    · simp [mapSet, mapFind, h1]
    · by_cases h2 : k = k'
      · simp [mapSet, mapFind, h1, h2]
      · simp [mapSet, mapFind, h1, h2, ih]

theorem ok_kind {e : TError} (h : e.ok = true) : e.kind = EError.Success := by
  simpa [TError.ok] using h

theorem not_ok_kind {e : TError} (h : ¬e.ok = true) :
    ¬e.kind = EError.Success := by
  simpa [TError.ok] using h

/-- C9 counterexample: a valid, unregistered name on which Create still
fails, because the persistent-record creation step fails. -/
theorem c9_counterexample :
    ValidName "a" = true ∧
    mapFind (TContainerHolder.mk []).Containers "a" = none ∧
    ((TContainerHolder.mk []).Create envPersistFail "a").1.ok = false := by
  refine ⟨by decide, rfl, by decide⟩

/-- C9 (amended): Holder.Create(name) succeeds exactly when no non-null
container is registered under name, the name is ROOT or well-formed
(non-empty, at most 128 characters over [A-Za-z0-9_]), and the
persistent-record creation succeeds; a malformed name or a collision
with a registered container fails with InvalidValue; on success the new
container is registered and is in state Stopped. -/
theorem c9_holder_create (env : Env) (h : TContainerHolder) (name : String)
    (hs : sortedKeys h.Containers) :
    ((h.Create env name).1.ok = true ↔
      (ValidName name = true ∧
       (∀ c, mapFind h.Containers name ≠ some (some c)) ∧
       (env.specCreate name).ok = true)) ∧
    (ValidName name = false →
      h.Create env name
        = (⟨EError.InvalidValue, "invalid container name " ++ name⟩, h)) ∧
    (∀ c, ValidName name = true → mapFind h.Containers name = some (some c) →
      (h.Create env name).1.kind = EError.InvalidValue ∧
      (h.Create env name).2 = h) ∧
    ((h.Create env name).1.ok = true →
      (h.Create env name).2.Get name = some (TContainer.new name) ∧
      (TContainer.new name).State = EContainerState.Stopped) ∧
    (ValidName name = true ↔
      (name = ROOT_CONTAINER ∨
        (name.length ≠ 0 ∧ name.length ≤ 128 ∧
          ∀ ch ∈ name.data, (ch.isAlphanum || ch == '_') = true))) := by
  refine ⟨?_, ?_, ?_, ?_, ?_⟩
  · by_cases hv : ValidName name
    · rcases hfind : mapFind h.Containers name with _ | v
      · have hidx : (mapIndex h.Containers name).1 = none := by
          rw [mapIndex_fst_sorted name _ hs, hfind]
          rfl
        by_cases hc : (env.specCreate name).ok
        · simp [TContainerHolder.Create, hv, hidx, hc, hfind, success_ok]
        · simp [TContainerHolder.Create, hv, hidx, hc, hfind,
            not_ok_kind hc, TError.ok]
      · cases v with
        | none =>
          have hidx : (mapIndex h.Containers name).1 = none := by
            rw [mapIndex_fst_sorted name _ hs, hfind]
            rfl
          by_cases hc : (env.specCreate name).ok
          · simp [TContainerHolder.Create, hv, hidx, hc, hfind, success_ok]
          · simp [TContainerHolder.Create, hv, hidx, hc, hfind,
              not_ok_kind hc, TError.ok]
        | some c0 =>
          have hidx : (mapIndex h.Containers name).1 = some c0 := by
            rw [mapIndex_fst_sorted name _ hs, hfind]
            rfl
          constructor
          · intro habs
            simp [TContainerHolder.Create, hv, hidx, TError.ok] at habs
          · rintro ⟨_, hall, _⟩
            exact absurd (hall c0) (by simp [hfind])
    · constructor
      · intro habs
        simp [TContainerHolder.Create, hv, TError.ok] at habs
      · rintro ⟨hv', _, _⟩
        exact absurd hv' hv
  · intro hv
    simp [TContainerHolder.Create, hv]
  · intro c0 hv hfind
    have hidx : (mapIndex h.Containers name).1 = some c0 := by
      rw [mapIndex_fst_sorted name _ hs, hfind]
      rfl
    have hsnd : (mapIndex h.Containers name).2 = h.Containers :=
      mapIndex_snd_found name (some c0) h.Containers hs hfind
    simp [TContainerHolder.Create, hv, hidx, hsnd]
  · intro hok
    by_cases hv : ValidName name
    · rcases hidx : (mapIndex h.Containers name).1 with _ | c0
      · by_cases hc : (env.specCreate name).ok
        · refine ⟨?_, rfl⟩
          simp [TContainerHolder.Create, hv, hidx, hc,
            TContainerHolder.Get, mapFind_mapSet_self]
        · exfalso
          simp [TContainerHolder.Create, hv, hidx, not_ok_kind hc,
            TError.ok] at hok
      · exfalso
        simp [TContainerHolder.Create, hv, hidx, TError.ok] at hok
    · exfalso
      simp [TContainerHolder.Create, hv, TError.ok] at hok
  · constructor
    · intro hvn
      unfold ValidName at hvn
      split_ifs at hvn with h1 h2 h3
      · exact Or.inl (by simpa using h1)
      · right
        refine ⟨by simpa using h2, by omega, ?_⟩
        intro ch hch
        exact List.all_eq_true.mp hvn ch hch
    · intro hsh
      unfold ValidName
      by_cases h1 : name == ROOT_CONTAINER
      · simp [h1]
      · rcases hsh with hr | ⟨hlen, hle, hall⟩
        · exact absurd hr (by simpa using h1)
        · have h2 : ¬name.length = 0 := by simpa using hlen
          have h3 : ¬128 < name.length := by omega
          simp [h1, h2, h3, List.all_eq_true]
          intro ch hch
          simpa using hall ch hch

/-- C10: after Create on a fresh name fails in the persistent-record
step, the collision probe through operator[] has left a null handle
registered under the name: find still locates the entry (the map
invariant is broken; List/Heartbeat/DeliverExitStatus would dereference
it), even though Get happens to report it like an absent name. -/
theorem c10_null_entry_after_failed_create :
    ((TContainerHolder.mk []).Create envPersistFail "a").1.ok = false ∧
    mapFind ((TContainerHolder.mk []).Create envPersistFail "a").2.Containers "a"
      = some none ∧
    ((TContainerHolder.mk []).Create envPersistFail "a").2.Get "a" = none := by
  refine ⟨by decide, by decide, by decide⟩

/-- The concrete Stopped container of the C2 witness. -/
def c2c : TContainer := TContainer.new "a"

def c2mcg : TCgroup := c2c.GetLeafCgroup TSubsystem.memory

def c2cr : TError × List TAction := createLeaves envKnobFail (startLeaves c2c)

def c2cgc : TContainer := { c2c with LeafCgroups := startLeaves c2c }

/-- C2 witness: the amended theorem at a concrete Stopped container in
the knob-failure environment. -/
theorem c2_witness :
    (c2cr.1.ok = false →
      c2c.Start envKnobFail = (c2cr.1, { c2c with LeafCgroups := [] }, c2cr.2)) ∧
    (c2cr.1.ok = true → (envKnobFail.useHierarchy c2mcg).ok = false →
      (c2c.Start envKnobFail).1 = envKnobFail.useHierarchy c2mcg ∧
      (c2c.Start envKnobFail).2.1 = c2cgc) ∧
    (c2cr.1.ok = true → (envKnobFail.useHierarchy c2mcg).ok = true →
      envKnobFail.hasLowLimitKnob = true →
      (envKnobFail.setKnob c2mcg "memory.low_limit_in_bytes"
        (c2c.Spec.get "memory_guarantee")).ok = false →
      (c2c.Start envKnobFail).1 = envKnobFail.setKnob c2mcg
        "memory.low_limit_in_bytes" (c2c.Spec.get "memory_guarantee") ∧
      (c2c.Start envKnobFail).2.1 = c2cgc) ∧
    (c2cr.1.ok = true → (envKnobFail.useHierarchy c2mcg).ok = true →
      (envKnobFail.hasLowLimitKnob = true →
        (envKnobFail.setKnob c2mcg "memory.low_limit_in_bytes"
          (c2c.Spec.get "memory_guarantee")).ok = true) →
      (envKnobFail.setKnob c2mcg "memory.limit_in_bytes"
        (c2c.Spec.get "memory_limit")).ok = false →
      (c2c.Start envKnobFail).1 = envKnobFail.setKnob c2mcg
        "memory.limit_in_bytes" (c2c.Spec.get "memory_limit") ∧
      (c2c.Start envKnobFail).2.1 = c2cgc) ∧
    (cgPhaseOk envKnobFail c2c = true → (c2c.Spec.get "command").length = 0 →
      (c2c.Start envKnobFail).1
        = ⟨EError.InvalidValue, "container command is empty"⟩ ∧
      (c2c.Start envKnobFail).2.1 = c2cgc) ∧
    (cgPhaseOk envKnobFail c2c = true → (c2c.Spec.get "command").length ≠ 0 →
      envKnobFail.taskEnvPrepare.ok = false →
      (c2c.Start envKnobFail).1 = envKnobFail.taskEnvPrepare ∧
      (c2c.Start envKnobFail).2.1 = c2cgc) ∧
    (∀ e, cgPhaseOk envKnobFail c2c = true → (c2c.Spec.get "command").length ≠ 0 →
      envKnobFail.taskEnvPrepare.ok = true →
      envKnobFail.taskStart = Except.error e →
      (c2c.Start envKnobFail).1 = e ∧
      (c2c.Start envKnobFail).2.1
        = { c2cgc with Task := some newTask, LeafCgroups := [] }) ∧
    ((c2c.Start envKnobFail).1.ok = false →
      (c2c.Start envKnobFail).2.1.State = EContainerState.Stopped) :=
  c2_start_failure_unwind envKnobFail c2c rfl (by decide) rfl c2mcg rfl c2cr rfl
    c2cgc rfl

/-- C4 witness: the theorem at a concrete Running container with a live
task of pid 7 and the status pair (7, 9). -/
theorem c4_witness :
    ((maybeRunning.DeliverExitStatus 7 9).1 = true ↔
      maybeRunning.State = EContainerState.Running ∧
        ∃ t, maybeRunning.Task = some t ∧ t.pid = 7) ∧
    (∀ t, maybeRunning.State = EContainerState.Running →
      maybeRunning.Task = some t → t.pid = 7 →
      maybeRunning.DeliverExitStatus 7 9
        = (true,
           { maybeRunning with
               Task := some { t with running := false, exitStatus := { t.exitStatus with Status := 9 } },
               State := EContainerState.Dead })) ∧
    ((maybeRunning.DeliverExitStatus 7 9).1 = false →
      (maybeRunning.DeliverExitStatus 7 9).2 = maybeRunning) ∧
    ((maybeRunning.DeliverExitStatus 7 9).2.State = EContainerState.Dead →
      maybeRunning.State = EContainerState.Dead ∨
        maybeRunning.State = EContainerState.Running) ∧
    (∀ env op, (applyOp env maybeRunning op).2.1.State = EContainerState.Dead →
      maybeRunning.State = EContainerState.Dead) ∧
    (∀ env node,
      (maybeRunning.Restore env node).2.1.State = EContainerState.Dead →
      maybeRunning.State = EContainerState.Dead) ∧
    (∀ l : List (String × Option TContainer),
      (∀ e ∈ l, ∀ cc : TContainer, e.2 = some cc →
        (cc.DeliverExitStatus 7 9).1 = false) →
      TContainerHolder.DeliverExitStatus ⟨l⟩ 7 9 = (false, ⟨l⟩)) ∧
    (∀ (pre post : List (String × Option TContainer)) (n : String)
       (cc : TContainer),
      (∀ e ∈ pre, ∀ c2 : TContainer, e.2 = some c2 →
        (c2.DeliverExitStatus 7 9).1 = false) →
      (cc.DeliverExitStatus 7 9).1 = true →
      TContainerHolder.DeliverExitStatus ⟨pre ++ (n, some cc) :: post⟩ 7 9
        = (true,
           ⟨pre ++ (n, some (cc.DeliverExitStatus 7 9).2) :: post⟩)) :=
  c4_deliver_exit_status maybeRunning 7 9

/-- C9 witness: the amended Create theorem on the empty registry and a
fresh valid name. -/
theorem c9_witness :
    (((TContainerHolder.mk []).Create env0 "b").1.ok = true ↔
      (ValidName "b" = true ∧
       (∀ c, mapFind (TContainerHolder.mk []).Containers "b" ≠ some (some c)) ∧
       (env0.specCreate "b").ok = true)) ∧
    (ValidName "b" = false →
      (TContainerHolder.mk []).Create env0 "b"
        = (⟨EError.InvalidValue, "invalid container name " ++ "b"⟩,
           TContainerHolder.mk [])) ∧
    (∀ c, ValidName "b" = true →
      mapFind (TContainerHolder.mk []).Containers "b" = some (some c) →
      (((TContainerHolder.mk []).Create env0 "b").1.kind = EError.InvalidValue ∧
       ((TContainerHolder.mk []).Create env0 "b").2 = TContainerHolder.mk [])) ∧
    ((((TContainerHolder.mk []).Create env0 "b").1.ok = true →
      ((TContainerHolder.mk []).Create env0 "b").2.Get "b"
        = some (TContainer.new "b") ∧
      (TContainer.new "b").State = EContainerState.Stopped)) ∧
    (ValidName "b" = true ↔
      ("b" = ROOT_CONTAINER ∨
        (("b" : String).length ≠ 0 ∧ ("b" : String).length ≤ 128 ∧
          ∀ ch ∈ ("b" : String).data, (ch.isAlphanum || ch == '_') = true))) :=
  c9_holder_create env0 (TContainerHolder.mk []) "b" List.Pairwise.nil

end Porto
